import Mathlib

/-!
Verification development for the rvoip_sip_server audio core.

Shallow embedding of the audio signal chain of `src/mp3_handler.rs`,
`src/tone_generator.rs` and `src/config.rs`:

* the G.711 companders (`linear_to_mulaw`, `linear_to_alaw`) over exact
  integers, with Rust release-mode (two's-complement wrapping) semantics for
  the i16 negation, plus overflow-checked (debug-mode) variants;
* the streaming resampler (`SimpleResampler`) over exact rationals;
* the tone synthesizer (`generate_pcm_samples`) over the reals;
* the telephony conditioning pipeline (`TelephonyAudioProcessor`) over a
  float model `FP = Option ℝ` in which `none` stands for a non-finite value.
-/

/-- Two's-complement wrap of an integer into the i16 range, the behaviour of
Rust integer arithmetic on overflow when overflow checks are disabled
(release profile). -/
def wrapI16 (n : ℤ) : ℤ := (n + 32768) % 65536 - 32768

/-- Overflow-checked i16 negation: Rust debug-profile arithmetic panics when
the result leaves the i16 range, which for an in-range operand happens exactly
at `-32768`.  The panic is modelled as `none`. -/
def checkedNegI16 (n : ℤ) : Option ℤ :=
  if -32768 ≤ -n ∧ -n ≤ 32767 then some (-n) else none

/-- Arithmetic right shift by `k` bits, the behaviour of `>>` on a signed
Rust integer (floor division by `2 ^ k`). -/
def asrI (x : ℤ) (k : ℕ) : ℤ := Int.fdiv x (2 ^ k)

namespace Mp3Handler

/-- Embedding of `Mp3Handler::linear_to_mulaw` (src/mp3_handler.rs, lines
250-271), with wrapping (release-profile) semantics for the i16 negation.
The returned natural number is the value of the `u8` result.  Bit operations
on the nonnegative packed value are modelled on ℕ; `sample & 0x0F` is the low
four bits of the two's-complement pattern, i.e. `% 16`; `!mulaw as u8` is
two's-complement NOT followed by truncation to the low byte. -/
def linear_to_mulaw (pcm : ℤ) : ℕ :=
  let sign : ℕ := if pcm < 0 then 0x80 else 0
  let sample : ℤ := if pcm < 0 then wrapI16 (-pcm) else pcm
  let sample : ℤ := if sample > 32635 then 32635 else sample
  let sample : ℤ := sample + 0x84
  let exponent : ℕ :=
    if sample ≥ 0x7FFF then 7
    else if sample ≥ 0x4000 then 6
    else if sample ≥ 0x2000 then 5
    else if sample ≥ 0x1000 then 4
    else if sample ≥ 0x0800 then 3
    else if sample ≥ 0x0400 then 2
    else if sample ≥ 0x0200 then 1
    else 0
  let mantissa : ℕ := ((asrI sample (exponent + 3)) % 16).toNat
  let mulaw : ℕ := sign ||| (exponent <<< 4) ||| mantissa
  ((-(mulaw : ℤ) - 1) % 256).toNat

end Mp3Handler

namespace ToneGenerator

/-- Embedding of `ToneGenerator::linear_to_mulaw` (src/tone_generator.rs,
lines 201-223), with wrapping (release-profile) semantics for the i16
negation; the source text is identical to `Mp3Handler::linear_to_mulaw`. -/
def linear_to_mulaw (pcm : ℤ) : ℕ :=
  let sign : ℕ := if pcm < 0 then 0x80 else 0
  let sample : ℤ := if pcm < 0 then wrapI16 (-pcm) else pcm
  let sample : ℤ := if sample > 32635 then 32635 else sample
  let sample : ℤ := sample + 0x84
  let exponent : ℕ :=
    if sample ≥ 0x7FFF then 7
    else if sample ≥ 0x4000 then 6
    else if sample ≥ 0x2000 then 5
    else if sample ≥ 0x1000 then 4
    else if sample ≥ 0x0800 then 3
    else if sample ≥ 0x0400 then 2
    else if sample ≥ 0x0200 then 1
    else 0
  let mantissa : ℕ := ((asrI sample (exponent + 3)) % 16).toNat
  let mulaw : ℕ := sign ||| (exponent <<< 4) ||| mantissa
  ((-(mulaw : ℤ) - 1) % 256).toNat

/-- Embedding of `ToneGenerator::linear_to_alaw` (src/tone_generator.rs,
lines 225-250), with wrapping semantics for the i16 negation.  In the
`exponent = 0` branch the unmasked `sample >> 4` may be negative (only for the
wrapped `-32768` magnitude), so the packed OR is taken on its 16-bit
two's-complement pattern `% 65536`; `as u8` keeps the low byte. -/
def linear_to_alaw (sample0 : ℤ) : ℕ :=
  let sign : ℕ := if sample0 < 0 then 0x80 else 0
  let sample : ℤ := if sample0 < 0 then wrapI16 (-sample0) else sample0
  let sample : ℤ := if sample > 0x7FFF then 0x7FFF else sample
  let exponent : ℕ :=
    if sample ≥ 0x4000 then 7
    else if sample ≥ 0x2000 then 6
    else if sample ≥ 0x1000 then 5
    else if sample ≥ 0x0800 then 4
    else if sample ≥ 0x0400 then 3
    else if sample ≥ 0x0200 then 2
    else if sample ≥ 0x0100 then 1
    else 0
  let mantissa : ℕ :=
    if exponent = 0 then ((asrI sample 4) % 65536).toNat
    else ((asrI sample (exponent + 3)) % 16).toNat
  let alaw : ℕ := sign ||| (exponent <<< 4) ||| mantissa
  (alaw % 256) ^^^ 0x55

/-- Overflow-checked (debug-profile) variant of `ToneGenerator.linear_to_mulaw`:
the i16 negation `-pcm` is checked and its overflow (a Rust panic) is modelled
as `none`.  Everything after the negation is as in the wrapping variant. -/
def linear_to_mulaw_checked (pcm : ℤ) : Option ℕ :=
  let sign : ℕ := if pcm < 0 then 0x80 else 0
  match (if pcm < 0 then checkedNegI16 pcm else some pcm) with
  | none => none
  | some sample =>
    let sample : ℤ := if sample > 32635 then 32635 else sample
    let sample : ℤ := sample + 0x84
    let exponent : ℕ :=
      if sample ≥ 0x7FFF then 7
      else if sample ≥ 0x4000 then 6
      else if sample ≥ 0x2000 then 5
      else if sample ≥ 0x1000 then 4
      else if sample ≥ 0x0800 then 3
      else if sample ≥ 0x0400 then 2
      else if sample ≥ 0x0200 then 1
      else 0
    let mantissa : ℕ := ((asrI sample (exponent + 3)) % 16).toNat
    let mulaw : ℕ := sign ||| (exponent <<< 4) ||| mantissa
    some (((-(mulaw : ℤ) - 1) % 256).toNat)

/-- Overflow-checked (debug-profile) variant of `ToneGenerator.linear_to_alaw`. -/
def linear_to_alaw_checked (sample0 : ℤ) : Option ℕ :=
  let sign : ℕ := if sample0 < 0 then 0x80 else 0
  match (if sample0 < 0 then checkedNegI16 sample0 else some sample0) with
  | none => none
  | some sample =>
    let sample : ℤ := if sample > 0x7FFF then 0x7FFF else sample
    let exponent : ℕ :=
      if sample ≥ 0x4000 then 7
      else if sample ≥ 0x2000 then 6
      else if sample ≥ 0x1000 then 5
      else if sample ≥ 0x0800 then 4
      else if sample ≥ 0x0400 then 3
      else if sample ≥ 0x0200 then 2
      else if sample ≥ 0x0100 then 1
      else 0
    let mantissa : ℕ :=
      if exponent = 0 then ((asrI sample 4) % 65536).toNat
      else ((asrI sample (exponent + 3)) % 16).toNat
    let alaw : ℕ := sign ||| (exponent <<< 4) ||| mantissa
    some ((alaw % 256) ^^^ 0x55)

end ToneGenerator

/-- State of `SimpleResampler` (src/mp3_handler.rs, lines 274-309); the f64
phase accumulator and the f32 samples are idealized as exact rationals. -/
structure SimpleResampler where
  source_rate : ℕ
  target_rate : ℕ
  position : ℚ
  last_sample : ℚ

namespace SimpleResampler

/-- Embedding of `SimpleResampler::new`. -/
def new (source_rate target_rate : ℕ) : SimpleResampler :=
  ⟨source_rate, target_rate, 0, 0⟩

/-- Embedding of `SimpleResampler::process_sample` (src/mp3_handler.rs,
lines 292-308): advance the phase accumulator by `target_rate / source_rate`,
emit one midpoint-interpolated sample when it reaches 1, and remember the
input as the previous sample. -/
def process_sample (s : SimpleResampler) (input_sample : ℚ) : List ℚ × SimpleResampler :=
  let position := s.position + (s.target_rate : ℚ) / (s.source_rate : ℚ)
  if 1 ≤ position then
    let interpolated := s.last_sample + (input_sample - s.last_sample) * (1/2)
    ([interpolated], { s with position := position - 1, last_sample := input_sample })
  else
    ([], { s with position := position, last_sample := input_sample })

end SimpleResampler

/-- Rust `as usize` cast of a float: truncation toward zero, with negative
values saturating to 0 (for nonnegative reals, truncation is the floor). -/
noncomputable def rustCastUsize (x : ℝ) : ℕ := (Int.floor x).toNat

/-- Truncation of a real toward zero, the rounding used by Rust float-to-int
casts. -/
noncomputable def truncR (x : ℝ) : ℤ := if 0 ≤ x then Int.floor x else -Int.floor (-x)

/-- Rust `as i16` cast of a float: truncate toward zero and saturate to the
i16 range. -/
noncomputable def rustCastI16 (x : ℝ) : ℤ := max (-32768) (min 32767 (truncR x))

/-- Mirror of `ToneConfig` (src/tone_generator.rs, lines 7-13); the f32
fields are idealized as reals. -/
structure ToneConfig where
  frequency : ℝ
  amplitude : ℝ
  sample_rate : ℕ
  duration_seconds : ℝ

namespace ToneGenerator

/-- Embedding of `ToneGenerator::generate_pcm_samples` (src/tone_generator.rs,
lines 96-114): `(sample_rate as f32 * duration_seconds) as usize` samples of
`amplitude * sin(2*pi*frequency*t)` at `t = i * (1/sample_rate)`, each scaled
by `i16::MAX = 32767` and cast to i16. -/
noncomputable def generate_pcm_samples (config : ToneConfig) : List ℤ :=
  let total_samples : ℕ := rustCastUsize ((config.sample_rate : ℝ) * config.duration_seconds)
  let angular_frequency : ℝ := 2 * Real.pi * config.frequency
  let sample_duration : ℝ := 1 / (config.sample_rate : ℝ)
  (List.range total_samples).map (fun (i : ℕ) =>
    let time : ℝ := (i : ℝ) * sample_duration
    let sample_value : ℝ := config.amplitude * Real.sin (angular_frequency * time)
    rustCastI16 (sample_value * 32767))

end ToneGenerator

/-- Model of an f32 value in the telephony pipeline: `some r` is the finite
value `r`, `none` stands for a non-finite value (NaN or an infinity).
Arithmetic propagates non-finiteness and division by zero produces it;
ordered comparisons against a non-finite value are modelled as false (exact
for NaN; for an infinity the branch taken in the source may differ, but every
value that could carry an infinity below is forced through an `is_finite`
guard before it can escape a stage, so the guarded outputs are unaffected).
Real arithmetic does not overflow, so finite values here never spontaneously
become non-finite; quantifying over arbitrary (possibly `none`) states covers
every contamination the f32 code could reach. -/
abbrev FP := Option ℝ

/-- Lift of a finite constant (a config field or literal) into the float model. -/
def fpC (x : ℝ) : FP := some x

noncomputable instance : Add FP :=
  ⟨fun a b => match a, b with | some x, some y => some (x + y) | _, _ => none⟩

noncomputable instance : Sub FP :=
  ⟨fun a b => match a, b with | some x, some y => some (x - y) | _, _ => none⟩

noncomputable instance : Mul FP :=
  ⟨fun a b => match a, b with | some x, some y => some (x * y) | _, _ => none⟩

noncomputable instance : Div FP :=
  ⟨fun a b => match a, b with
    | some x, some y => if y = 0 then none else some (x / y)
    | _, _ => none⟩

/-- Comparison `a < b` on model floats; false whenever a side is non-finite. -/
def fpLt (a b : FP) : Prop :=
  match a, b with
  | some x, some y => x < y
  | _, _ => False

noncomputable instance (a b : FP) : Decidable (fpLt a b) :=
  match a, b with
  | some x, some y => inferInstanceAs (Decidable (x < y))
  | some _, none => isFalse (fun h => h)
  | none, _ => isFalse (fun h => h)

/-- Model of `f32::abs`. -/
def fabs : FP → FP := Option.map (fun x => |x|)

/-- Model of `f32::exp`. -/
noncomputable def fexp : FP → FP := Option.map Real.exp

/-- Model of `f32::signum` (1 for nonnegative arguments, -1 for negative). -/
noncomputable def fsignum : FP → FP :=
  Option.map (fun x => if x < 0 then (-1 : ℝ) else 1)

/-- Model of `f32::powi`. -/
def fpowi (x : FP) (n : ℕ) : FP := Option.map (fun v => v ^ n) x

/-- Model of `f32::clamp lo hi` (propagating NaN like the Rust source). -/
noncomputable def fclamp (x : FP) (lo hi : ℝ) : FP :=
  Option.map (fun v => max lo (min hi v)) x

/-- Model of the source's `if output.is_finite() { output } else { 0.0 }`
containment guard. -/
def finiteOr0 (output : FP) : FP := if output.isSome then output else some 0

/-- Finite value carried by a model float, with non-finite values read as 0
(used only to state concrete evaluations). -/
def sanitize (x : FP) : ℝ :=
  match x with
  | some v => v
  | none => 0

/-- Mirror of `CompressorBandConfig` (src/config.rs, lines 80-89). -/
structure CompressorBandConfig where
  target_level : ℝ
  attack_time : ℝ
  release_time : ℝ
  ratio : ℝ
  threshold_factor : ℝ
  knee_width : ℝ
  enabled : Bool

/-- Mirror of `AudioProcessingConfig` (src/config.rs, lines 64-78). -/
structure AudioProcessingConfig where
  preemphasis_alpha : ℝ
  bandpass_low_freq : ℝ
  bandpass_high_freq : ℝ
  band_split_freq_1 : ℝ
  band_split_freq_2 : ℝ
  band1_compressor : CompressorBandConfig
  band2_compressor : CompressorBandConfig
  band3_compressor : CompressorBandConfig
  noise_gate_threshold : ℝ
  noise_gate_ratio : ℝ
  soft_limiter_threshold : ℝ

/-- Mirror of `BandSplitFilters` (src/mp3_handler.rs, lines 330-346). -/
structure BandSplitFilters where
  lowpass1_x1 : FP
  lowpass1_x2 : FP
  lowpass1_y1 : FP
  lowpass1_y2 : FP
  highpass2_x1 : FP
  highpass2_x2 : FP
  highpass2_y1 : FP
  highpass2_y2 : FP
  bandpass2_x1 : FP
  bandpass2_x2 : FP
  bandpass2_y1 : FP
  bandpass2_y2 : FP

/-- Mirror of `BandCompressor` (src/mp3_handler.rs, lines 349-351). -/
structure BandCompressor where
  envelope : FP

/-- Embedding of `BandSplitFilters::new`. -/
def BandSplitFilters.new : BandSplitFilters :=
  ⟨some 0, some 0, some 0, some 0, some 0, some 0,
   some 0, some 0, some 0, some 0, some 0, some 0⟩

/-- Embedding of `BandCompressor::new`. -/
def BandCompressor.new : BandCompressor := ⟨some 0⟩

/-- Mirror of `TelephonyAudioProcessor` (src/mp3_handler.rs, lines 312-327). -/
structure TelephonyAudioProcessor where
  sample_rate : ℝ
  config : AudioProcessingConfig
  preemphasis_prev : FP
  bandpass_x1 : FP
  bandpass_x2 : FP
  bandpass_y1 : FP
  bandpass_y2 : FP
  band_filters : BandSplitFilters
  band1_compressor : BandCompressor
  band2_compressor : BandCompressor
  band3_compressor : BandCompressor

namespace TelephonyAudioProcessor

/-- Embedding of `TelephonyAudioProcessor::new` (src/mp3_handler.rs, lines
381-395): all filter and envelope state starts at zero. -/
def new (sample_rate : ℝ) (config : AudioProcessingConfig) : TelephonyAudioProcessor :=
  ⟨sample_rate, config, some 0, some 0, some 0, some 0, some 0,
   BandSplitFilters.new, BandCompressor.new, BandCompressor.new, BandCompressor.new⟩

/-- Embedding of `TelephonyAudioProcessor::preemphasis_filter` (lines 416-422). -/
noncomputable def preemphasis_filter (s : TelephonyAudioProcessor) (input : FP) :
    FP × TelephonyAudioProcessor :=
  let alpha := s.config.preemphasis_alpha
  let output := input - fpC alpha * s.preemphasis_prev
  (output, { s with preemphasis_prev := input })

/-- Embedding of `TelephonyAudioProcessor::bandpass_filter` (lines 425-467).
The filter coefficients are computed from finite config values, so they live
in ℝ; the direct-form-II state may be contaminated, so it lives in `FP`.  The
raw (unguarded) output is stored into `bandpass_y1`, and the guarded output is
returned, exactly as in the source. -/
noncomputable def bandpass_filter (s : TelephonyAudioProcessor) (input : FP) :
    FP × TelephonyAudioProcessor :=
  let low_freq : ℝ := s.config.bandpass_low_freq
  let high_freq : ℝ := s.config.bandpass_high_freq
  let nyquist : ℝ := s.sample_rate / 2
  let low_freq := min low_freq (nyquist * 0.95)
  let high_freq := min high_freq (nyquist * 0.95)
  let wc1 := low_freq / nyquist
  let wc2 := high_freq / nyquist
  let wc1_pre := Real.tan (Real.pi * wc1 / 2)
  let wc2_pre := Real.tan (Real.pi * wc2 / 2)
  let bw := wc2_pre - wc1_pre
  let wc := Real.sqrt (wc1_pre * wc2_pre)
  let norm := 1 + bw + wc * wc
  let b0 := bw / norm
  let b1 := (0 : ℝ)
  let b2 := -bw / norm
  let a1 := 2 * (wc * wc - 1) / norm
  let a2 := (1 - bw + wc * wc) / norm
  let output := fpC b0 * input + fpC b1 * s.bandpass_x1 + fpC b2 * s.bandpass_x2
      - fpC a1 * s.bandpass_y1 - fpC a2 * s.bandpass_y2
  (finiteOr0 output,
   { s with bandpass_x2 := s.bandpass_x1, bandpass_x1 := input,
            bandpass_y2 := s.bandpass_y1, bandpass_y1 := output })

/-- Embedding of `TelephonyAudioProcessor::apply_lowpass_filter` (lines
470-493).  Returns the guarded output together with the four updated state
cells `(x1, x2, y1, y2)`; as in the source, `y1` stores the raw output. -/
noncomputable def apply_lowpass_filter (input : FP) (cutoff_freq sample_rate : ℝ)
    (x1 x2 y1 y2 : FP) : FP × FP × FP × FP × FP :=
  let nyquist := sample_rate / 2
  let wc := cutoff_freq / nyquist
  let wc_pre := Real.tan (Real.pi * wc / 2)
  let norm := 1 + Real.sqrt 2 * wc_pre + wc_pre * wc_pre
  let b0 := wc_pre * wc_pre / norm
  let b1 := 2 * b0
  let b2 := b0
  let a1 := 2 * (wc_pre * wc_pre - 1) / norm
  let a2 := (1 - Real.sqrt 2 * wc_pre + wc_pre * wc_pre) / norm
  let output := fpC b0 * input + fpC b1 * x1 + fpC b2 * x2
      - fpC a1 * y1 - fpC a2 * y2
  (finiteOr0 output, input, x1, output, y1)

/-- Embedding of `TelephonyAudioProcessor::apply_highpass_filter` (lines
496-519), with the same state convention as `apply_lowpass_filter`. -/
noncomputable def apply_highpass_filter (input : FP) (cutoff_freq sample_rate : ℝ)
    (x1 x2 y1 y2 : FP) : FP × FP × FP × FP × FP :=
  let nyquist := sample_rate / 2
  let wc := cutoff_freq / nyquist
  let wc_pre := Real.tan (Real.pi * wc / 2)
  let norm := 1 + Real.sqrt 2 * wc_pre + wc_pre * wc_pre
  let b0 := 1 / norm
  let b1 := -2 * b0
  let b2 := b0
  let a1 := 2 * (wc_pre * wc_pre - 1) / norm
  let a2 := (1 - Real.sqrt 2 * wc_pre + wc_pre * wc_pre) / norm
  let output := fpC b0 * input + fpC b1 * x1 + fpC b2 * x2
      - fpC a1 * y1 - fpC a2 * y2
  (finiteOr0 output, input, x1, output, y1)

/-- Embedding of `TelephonyAudioProcessor::apply_bandpass_filter` (lines
522-552), with the same state convention as `apply_lowpass_filter`. -/
noncomputable def apply_bandpass_filter (input : FP) (low_freq high_freq sample_rate : ℝ)
    (x1 x2 y1 y2 : FP) : FP × FP × FP × FP × FP :=
  let nyquist := sample_rate / 2
  let wc1 := low_freq / nyquist
  let wc2 := high_freq / nyquist
  let wc1_pre := Real.tan (Real.pi * wc1 / 2)
  let wc2_pre := Real.tan (Real.pi * wc2 / 2)
  let bw := wc2_pre - wc1_pre
  let wc := Real.sqrt (wc1_pre * wc2_pre)
  let norm := 1 + bw + wc * wc
  let b0 := bw / norm
  let b1 := (0 : ℝ)
  let b2 := -bw / norm
  let a1 := 2 * (wc * wc - 1) / norm
  let a2 := (1 - bw + wc * wc) / norm
  let output := fpC b0 * input + fpC b1 * x1 + fpC b2 * x2
      - fpC a1 * y1 - fpC a2 * y2
  (finiteOr0 output, input, x1, output, y1)

/-- Embedding of `TelephonyAudioProcessor::split_into_bands` (lines 578-600). -/
noncomputable def split_into_bands (s : TelephonyAudioProcessor) (input : FP) :
    (FP × FP × FP) × TelephonyAudioProcessor :=
  let nyquist := s.sample_rate / 2
  let split_freq_1 := min s.config.band_split_freq_1 (nyquist * 0.95)
  let split_freq_2 := min s.config.band_split_freq_2 (nyquist * 0.95)
  let sample_rate := s.sample_rate
  let r1 := apply_lowpass_filter input split_freq_1 sample_rate
      s.band_filters.lowpass1_x1 s.band_filters.lowpass1_x2
      s.band_filters.lowpass1_y1 s.band_filters.lowpass1_y2
  let r3 := apply_highpass_filter input split_freq_2 sample_rate
      s.band_filters.highpass2_x1 s.band_filters.highpass2_x2
      s.band_filters.highpass2_y1 s.band_filters.highpass2_y2
  let r2 := apply_bandpass_filter input split_freq_1 split_freq_2 sample_rate
      s.band_filters.bandpass2_x1 s.band_filters.bandpass2_x2
      s.band_filters.bandpass2_y1 s.band_filters.bandpass2_y2
  ((r1.1, r2.1, r3.1),
   { s with band_filters :=
      ⟨r1.2.1, r1.2.2.1, r1.2.2.2.1, r1.2.2.2.2,
       r3.2.1, r3.2.2.1, r3.2.2.2.1, r3.2.2.2.2,
       r2.2.1, r2.2.2.1, r2.2.2.2.1, r2.2.2.2.2⟩ })

/-- Embedding of `TelephonyAudioProcessor::compress_band` (lines 603-658):
bypass when disabled, otherwise envelope follower, soft-knee gain computation,
clamped gain application and the final `is_finite` guard. -/
noncomputable def compress_band (input : FP) (config : CompressorBandConfig)
    (compressor : BandCompressor) (sample_rate : ℝ) : FP × BandCompressor :=
  if !config.enabled then
    (input, compressor)
  else
    let input_level := fabs input
    let target_level := config.target_level
    let attack_time := config.attack_time
    let release_time := config.release_time
    let attack_coeff := Real.exp (-1 / (attack_time * sample_rate))
    let release_coeff := Real.exp (-1 / (release_time * sample_rate))
    let envelope :=
      if fpLt compressor.envelope input_level then
        fpC attack_coeff * compressor.envelope + fpC (1 - attack_coeff) * input_level
      else
        fpC release_coeff * compressor.envelope + fpC (1 - release_coeff) * input_level
    let ratio := config.ratio
    let threshold := target_level * config.threshold_factor
    let knee_width := config.knee_width
    let gain :=
      if fpLt (fpC threshold) envelope then
        let excess := envelope - fpC threshold
        let knee_ratio :=
          if fpLt excess (fpC knee_width) then
            fpC 1 + fpC (ratio - 1) * fpowi (excess / fpC knee_width) 2
          else fpC ratio
        let compressed_excess := excess / knee_ratio
        let compressed_level := fpC threshold + compressed_excess
        if fpLt (fpC 1e-10) envelope then
          compressed_level / envelope
        else fpC 1
      else
        fpC (min (target_level / (threshold + 1e-10)) 1.2)
    let output := input * fclamp gain 0.1 2
    (finiteOr0 output, ⟨envelope⟩)

/-- Embedding of `TelephonyAudioProcessor::three_band_compressor` (lines
555-575): split, compress each band with its own envelope state, recombine,
and guard the sum. -/
noncomputable def three_band_compressor (s : TelephonyAudioProcessor) (input : FP) :
    FP × TelephonyAudioProcessor :=
  let r := s.split_into_bands input
  let band1 := r.1.1
  let band2 := r.1.2.1
  let band3 := r.1.2.2
  let s1 := r.2
  let sample_rate := s1.sample_rate
  let c1 := compress_band band1 s1.config.band1_compressor s1.band1_compressor sample_rate
  let c2 := compress_band band2 s1.config.band2_compressor s1.band2_compressor sample_rate
  let c3 := compress_band band3 s1.config.band3_compressor s1.band3_compressor sample_rate
  let combined := c1.1 + c2.1 + c3.1
  (finiteOr0 combined,
   { s1 with band1_compressor := c1.2, band2_compressor := c2.2, band3_compressor := c3.2 })

/-- Embedding of `TelephonyAudioProcessor::noise_gate` (lines 661-669). -/
noncomputable def noise_gate (s : TelephonyAudioProcessor) (input : FP) : FP :=
  let input_level := fabs input
  if fpLt input_level (fpC s.config.noise_gate_threshold) then
    input * fpC s.config.noise_gate_ratio
  else input

/-- Embedding of `TelephonyAudioProcessor::soft_limiter` (lines 672-680). -/
noncomputable def soft_limiter (s : TelephonyAudioProcessor) (input : FP) : FP :=
  let threshold := s.config.soft_limiter_threshold
  if fpLt (fpC threshold) (fabs input) then
    fpC threshold * fsignum input * (fpC 1 - fexp (fpC (-3) * (fabs input - fpC threshold)))
  else input

/-- Embedding of `TelephonyAudioProcessor::process_sample` (lines 398-413):
preemphasis, bandpass, three-band compression, noise gate, soft limiter. -/
noncomputable def process_sample (s : TelephonyAudioProcessor) (input : FP) :
    FP × TelephonyAudioProcessor :=
  let p := s.preemphasis_filter input
  let b := p.2.bandpass_filter p.1
  let c := b.2.three_band_compressor b.1
  let gated := c.2.noise_gate c.1
  (c.2.soft_limiter gated, c.2)

/-- Embedding of `TelephonyAudioProcessor::reset` (lines 683-708): every
filter and envelope cell returns to zero; sample rate and config are kept. -/
def reset (s : TelephonyAudioProcessor) : TelephonyAudioProcessor :=
  { s with preemphasis_prev := some 0,
           bandpass_x1 := some 0, bandpass_x2 := some 0,
           bandpass_y1 := some 0, bandpass_y2 := some 0,
           band_filters :=
             ⟨some 0, some 0, some 0, some 0, some 0, some 0,
              some 0, some 0, some 0, some 0, some 0, some 0⟩,
           band1_compressor := ⟨some 0⟩,
           band2_compressor := ⟨some 0⟩,
           band3_compressor := ⟨some 0⟩ }

/-- Per-sample driver for a whole stream, as the conversion loop in
`Mp3Handler::convert_mp3_to_wav` feeds `process_sample` one sample at a time. -/
noncomputable def run (s : TelephonyAudioProcessor) : List FP → List FP
  | [] => []
  | x :: xs =>
    let r := s.process_sample x
    r.1 :: r.2.run xs

end TelephonyAudioProcessor

/-- Real-valued core of `TelephonyAudioProcessor::soft_limiter` for a finite
input `x` and limiter threshold `threshold` (`signum` inlined as in
`fsignum`). -/
noncomputable def soft_limiter_real (threshold x : ℝ) : ℝ :=
  if threshold < |x| then
    threshold * (if x < 0 then (-1 : ℝ) else 1) * (1 - Real.exp (-3 * (|x| - threshold)))
  else x

/-! Helper lemmas about the float model and the pipeline stages. -/

@[simp] lemma fp_add_some (a b : ℝ) : (some a : FP) + some b = some (a + b) := rfl

@[simp] lemma fp_sub_some (a b : ℝ) : (some a : FP) - some b = some (a - b) := rfl

@[simp] lemma fp_mul_some (a b : ℝ) : (some a : FP) * some b = some (a * b) := rfl

@[simp] lemma finiteOr0_some_val (a : ℝ) : finiteOr0 (some a) = some a := rfl

@[simp] lemma sanitize_some (a : ℝ) : sanitize (some a) = a := rfl

lemma finiteOr0_isSome (x : FP) : ∃ r : ℝ, finiteOr0 x = some r := by
  cases x with
  | none => exact ⟨0, rfl⟩
  | some v => exact ⟨v, rfl⟩

lemma compress_band_disabled_eq (input : FP) (config : CompressorBandConfig)
    (compressor : BandCompressor) (sample_rate : ℝ) (h : config.enabled = false) :
    TelephonyAudioProcessor.compress_band input config compressor sample_rate
      = (input, compressor) := by
  unfold TelephonyAudioProcessor.compress_band
  rw [h]
  rfl

lemma three_band_compressor_fst_isSome (s : TelephonyAudioProcessor) (input : FP) :
    ∃ r : ℝ, (s.three_band_compressor input).1 = some r := by
  unfold TelephonyAudioProcessor.three_band_compressor
  exact finiteOr0_isSome _

lemma noise_gate_some (s : TelephonyAudioProcessor) (v : ℝ) :
    ∃ w : ℝ, s.noise_gate (some v) = some w := by
  simp only [TelephonyAudioProcessor.noise_gate]
  split
  · exact ⟨v * s.config.noise_gate_ratio, rfl⟩
  · exact ⟨v, rfl⟩

lemma soft_limiter_some (s : TelephonyAudioProcessor) (v : ℝ) :
    ∃ w : ℝ, s.soft_limiter (some v) = some w := by
  simp only [TelephonyAudioProcessor.soft_limiter]
  split
  · exact ⟨_, rfl⟩
  · exact ⟨v, rfl⟩

lemma limiter_of_gate_some (s : TelephonyAudioProcessor) (cFP : FP)
    (hc : ∃ c : ℝ, cFP = some c) :
    ∃ r : ℝ, s.soft_limiter (s.noise_gate cFP) = some r := by
  obtain ⟨c, rfl⟩ := hc
  obtain ⟨g, hg⟩ := noise_gate_some s c
  rw [hg]
  exact soft_limiter_some s g

lemma reset_eq_new (s : TelephonyAudioProcessor) :
    s.reset = TelephonyAudioProcessor.new s.sample_rate s.config := by
  cases s
  rfl

/-! Claim theorems. -/

/-- C8: the μ-law encoder maps the PCM input 0 to the byte 0xFF and the A-law
encoder maps it to the byte 0x55. -/
theorem mulaw_zero_alaw_zero :
    ToneGenerator.linear_to_mulaw 0 = 0xFF ∧ ToneGenerator.linear_to_alaw 0 = 0x55 := by
  decide

/-- C10: the two μ-law encoder implementations, `Mp3Handler::linear_to_mulaw`
and `ToneGenerator::linear_to_mulaw`, compute the same output byte for every
input (in particular for every 16-bit signed integer). -/
theorem mulaw_impls_agree (pcm : ℤ) :
    Mp3Handler.linear_to_mulaw pcm = ToneGenerator.linear_to_mulaw pcm := rfl

/-- C4: at the input `i16::MIN = -32768` the magnitude computation `-pcm`
overflows i16, so under Rust's overflow-checked (debug-profile) semantics both
encoders hit a panic (modelled as `none`) rather than completing — the claimed
totality with no failure path fails at this one input.  Under release
(wrapping) semantics both still return a byte, the μ-law one being the
nonsensical 0x7F obtained from a negative "magnitude". -/
theorem codec_negation_overflows_at_min :
    ToneGenerator.linear_to_mulaw_checked (-32768) = none ∧
    ToneGenerator.linear_to_alaw_checked (-32768) = none ∧
    ToneGenerator.linear_to_mulaw (-32768) = 0x7F ∧
    ToneGenerator.linear_to_alaw (-32768) = 0xD5 := by
  decide

/-- C9: a band compressor whose config has `enabled = false` returns its input
unchanged and leaves the band's envelope state exactly unchanged. -/
theorem compress_band_bypass (input : FP) (config : CompressorBandConfig)
    (compressor : BandCompressor) (sample_rate : ℝ) (h : config.enabled = false) :
    TelephonyAudioProcessor.compress_band input config compressor sample_rate
      = (input, compressor) :=
  compress_band_disabled_eq input config compressor sample_rate h

/-- Witness for C9 at a concrete disabled band config, input and envelope. -/
theorem compress_band_bypass_witness :
    TelephonyAudioProcessor.compress_band (some 1)
      ⟨0.4, 0.01, 0.15, 4, 0.6, 0.15, false⟩ ⟨some (1/2)⟩ 8000
      = (some 1, ⟨some (1/2)⟩) :=
  compress_band_bypass (some 1) ⟨0.4, 0.01, 0.15, 4, 0.6, 0.15, false⟩ ⟨some (1/2)⟩ 8000 rfl

/-- C6: a freshly constructed processor and one with the same sample rate and
config on which `reset()` has just been called produce identical output
sequences on identical subsequent inputs. -/
theorem reset_matches_fresh_processor (s : TelephonyAudioProcessor) (inputs : List FP) :
    s.reset.run inputs = (TelephonyAudioProcessor.new s.sample_rate s.config).run inputs := by
  rw [reset_eq_new]

/-- C1: for every finite input and every internal state — including states
contaminated by non-finite values, a superset of the reachable ones —
`process_sample` returns a finite value: the three-band stage forces its
output through an `is_finite` guard, and the noise gate and soft limiter
preserve finiteness. -/
theorem process_sample_finite_output (s : TelephonyAudioProcessor) (x : ℝ) :
    ∃ r : ℝ, (s.process_sample (some x)).1 = some r := by
  simp only [TelephonyAudioProcessor.process_sample]
  exact limiter_of_gate_some _ _ (three_band_compressor_fst_isSome _ _)

/-- C5: each resampler call advances the accumulator by
`target_rate / source_rate`; if the advanced accumulator reaches 1 the call
emits exactly one sample, the midpoint of the previous and current inputs,
and decrements the accumulator by 1; otherwise it emits nothing — so every
call returns 0 or 1 samples, and the current input becomes the remembered
previous sample. -/
theorem resampler_process_sample_spec (s : SimpleResampler) (x : ℚ) :
    ((s.process_sample x).1.length = 0 ∨ (s.process_sample x).1.length = 1) ∧
    (s.process_sample x).2.last_sample = x ∧
    (s.process_sample x).2.source_rate = s.source_rate ∧
    (s.process_sample x).2.target_rate = s.target_rate ∧
    (1 ≤ s.position + (s.target_rate : ℚ) / (s.source_rate : ℚ) →
      (s.process_sample x).1 = [(s.last_sample + x) / 2] ∧
      (s.process_sample x).2.position
        = s.position + (s.target_rate : ℚ) / (s.source_rate : ℚ) - 1) ∧
    (s.position + (s.target_rate : ℚ) / (s.source_rate : ℚ) < 1 →
      (s.process_sample x).1 = [] ∧
      (s.process_sample x).2.position
        = s.position + (s.target_rate : ℚ) / (s.source_rate : ℚ)) := by
  by_cases h : 1 ≤ s.position + (s.target_rate : ℚ) / (s.source_rate : ℚ)
  · simp only [SimpleResampler.process_sample, if_pos h]
    refine ⟨Or.inr rfl, trivial, trivial, trivial, fun _ => ⟨?_, trivial⟩,
      fun hc => absurd h (not_le.mpr hc)⟩
    congr 1
    ring
  · simp only [SimpleResampler.process_sample, if_neg h]
    exact ⟨Or.inl rfl, trivial, trivial, trivial, fun hc => absurd hc h,
      fun _ => ⟨trivial, trivial⟩⟩

/-- Witness for C5: a concrete call that crosses the emission threshold. -/
theorem resampler_process_sample_spec_witness :
    ((SimpleResampler.mk 44100 8000 (9/10) 0).process_sample 1).1 = [((0:ℚ) + 1) / 2] ∧
    ((SimpleResampler.mk 44100 8000 (9/10) 0).process_sample 1).2.position
      = 9/10 + (8000:ℚ)/44100 - 1 := by
  have h := (resampler_process_sample_spec (SimpleResampler.mk 44100 8000 (9/10) 0) 1).2.2.2.2.1
    (by norm_num)
  refine ⟨h.1, ?_⟩
  rw [h.2]
  norm_num

lemma soft_limiter_some_eq (s : TelephonyAudioProcessor) (x : ℝ) :
    s.soft_limiter (some x) = some (soft_limiter_real s.config.soft_limiter_threshold x) := by
  unfold TelephonyAudioProcessor.soft_limiter soft_limiter_real
  by_cases h : s.config.soft_limiter_threshold < |x|
  · rw [if_pos (show fpLt (fpC s.config.soft_limiter_threshold) (fabs (some x)) from h),
      if_pos h]
    rfl
  · rw [if_neg (show ¬ fpLt (fpC s.config.soft_limiter_threshold) (fabs (some x)) from h),
      if_neg h]

lemma soft_limiter_real_abs_of_over (t z : ℝ) (ht : 0 < t) (hz : t < |z|) :
    |soft_limiter_real t z| = t * (1 - Real.exp (-3 * (|z| - t))) := by
  unfold soft_limiter_real
  rw [if_pos hz]
  have he : Real.exp (-3 * (|z| - t)) < 1 := Real.exp_lt_one_iff.mpr (by nlinarith)
  by_cases hzs : z < 0
  · rw [if_pos hzs]
    have hnp : t * (-1:ℝ) * (1 - Real.exp (-3 * (|z| - t))) ≤ 0 := by nlinarith
    rw [abs_of_nonpos hnp]
    ring
  · rw [if_neg hzs]
    have hnn : 0 ≤ t * (1:ℝ) * (1 - Real.exp (-3 * (|z| - t))) := by nlinarith
    rw [abs_of_nonneg hnn]
    ring

lemma soft_limiter_real_of_under (t z : ℝ) (hz : ¬ t < |z|) :
    soft_limiter_real t z = z := by
  unfold soft_limiter_real
  rw [if_neg hz]

/-- C2 counterexample: with threshold 0.9, the input magnitude grows from 0.9
to 1 but the output magnitude drops from 0.9 to 0.9·(1 − exp(−0.3)) ≈ 0.23 —
`|soft_limiter(x)|` is not monotone in `|x|` (the limiting formula is
discontinuous at the threshold). -/
theorem soft_limiter_not_monotone_in_abs :
    |(0.9:ℝ)| ≤ |(1:ℝ)| ∧
    |soft_limiter_real 0.9 1| < |soft_limiter_real 0.9 0.9| := by
  have e09 : |(0.9:ℝ)| = 0.9 := abs_of_pos (by norm_num)
  constructor
  · rw [e09, abs_one]
    norm_num
  · have h1 : soft_limiter_real 0.9 0.9 = 0.9 := by
      apply soft_limiter_real_of_under
      rw [e09]
      exact lt_irrefl _
    have h2 : |soft_limiter_real 0.9 1| = 0.9 * (1 - Real.exp (-3 * (|(1:ℝ)| - 0.9))) := by
      apply soft_limiter_real_abs_of_over 0.9 1 (by norm_num)
      rw [abs_one]
      norm_num
    rw [h1, h2, e09, abs_one]
    have he : 0 < Real.exp (-3 * ((1:ℝ) - 0.9)) := Real.exp_pos _
    nlinarith

/-- C2 (amended): for a positive threshold `t`, `|soft_limiter(x)| ≤ t` for
every finite input (with ε = 0), and `|soft_limiter|` is monotone in `|x|`
separately on the pass-through region `|x| ≤ t` and on the limited region
`t < |x|` — but, by the counterexample, not across the two regions. -/
theorem soft_limiter_bounded_piecewise_monotone (t x y : ℝ) (ht : 0 < t) :
    |soft_limiter_real t x| ≤ t ∧
    (|x| ≤ |y| → |y| ≤ t → |soft_limiter_real t x| ≤ |soft_limiter_real t y|) ∧
    (t < |x| → |x| ≤ |y| → |soft_limiter_real t x| ≤ |soft_limiter_real t y|) := by
  refine ⟨?_, ?_, ?_⟩
  · by_cases hx : t < |x|
    · rw [soft_limiter_real_abs_of_over t x ht hx]
      have he : 0 < Real.exp (-3 * (|x| - t)) := Real.exp_pos _
      nlinarith
    · rw [soft_limiter_real_of_under t x hx]
      exact le_of_not_lt hx
  · intro hxy hyt
    have hx : ¬ t < |x| := not_lt.mpr (le_trans hxy hyt)
    have hy : ¬ t < |y| := not_lt.mpr hyt
    rw [soft_limiter_real_of_under t x hx, soft_limiter_real_of_under t y hy]
    exact hxy
  · intro hx hxy
    have hy : t < |y| := lt_of_lt_of_le hx hxy
    rw [soft_limiter_real_abs_of_over t x ht hx, soft_limiter_real_abs_of_over t y ht hy]
    have he : Real.exp (-3 * (|y| - t)) ≤ Real.exp (-3 * (|x| - t)) :=
      Real.exp_le_exp.mpr (by nlinarith)
    nlinarith

/-- Witness for the amended C2 at threshold 0.9 and inputs 0.2 and 0.5. -/
theorem soft_limiter_bounded_piecewise_monotone_witness :
    |soft_limiter_real 0.9 0.2| ≤ 0.9 ∧
    |soft_limiter_real 0.9 0.2| ≤ |soft_limiter_real 0.9 0.5| := by
  have h := soft_limiter_bounded_piecewise_monotone 0.9 0.2 0.5 (by norm_num)
  have ha : |(0.2:ℝ)| ≤ |(0.5:ℝ)| := by
    rw [abs_of_pos, abs_of_pos] <;> norm_num
  have hb : |(0.5:ℝ)| ≤ (0.9:ℝ) := by
    rw [abs_of_pos] <;> norm_num
  exact ⟨h.1, h.2.1 ha hb⟩

/-- C7 counterexample: at sample rate 8000 and duration 1/10000 s the product
`sample_rate · duration` is 0.8; the code truncates it to 0 samples while the
claimed `round` is 1. -/
theorem generate_pcm_samples_count_not_round :
    (ToneGenerator.generate_pcm_samples ⟨440, 0.5, 8000, 1/10000⟩).length = 0 ∧
    round (((8000:ℕ) : ℝ) * (1/10000)) = (1 : ℤ) := by
  constructor
  · simp only [ToneGenerator.generate_pcm_samples, rustCastUsize, List.length_map,
      List.length_range]
    norm_num
  · rw [round_eq]
    norm_num

/-- C7 (amended): `generate_pcm_samples` returns exactly
`trunc(sample_rate · duration)` samples (truncation, not rounding), and sample
`i` is `amplitude·sin(2π·f·(i/sample_rate))` scaled by `i16::MAX = 32767` and
cast to i16. -/
theorem generate_pcm_samples_spec (c : ToneConfig) :
    (ToneGenerator.generate_pcm_samples c).length
      = (Int.floor ((c.sample_rate : ℝ) * c.duration_seconds)).toNat ∧
    ∀ i : ℕ, i < (Int.floor ((c.sample_rate : ℝ) * c.duration_seconds)).toNat →
      (ToneGenerator.generate_pcm_samples c).getD i 0 =
        rustCastI16 (c.amplitude *
          Real.sin (2 * Real.pi * c.frequency * ((i : ℝ) / (c.sample_rate : ℝ))) * 32767) := by
  constructor
  · simp only [ToneGenerator.generate_pcm_samples, rustCastUsize, List.length_map,
      List.length_range]
  · intro i hi
    simp only [ToneGenerator.generate_pcm_samples, rustCastUsize]
    rw [List.getD_eq_getElem?_getD, List.getElem?_map, List.getElem?_range hi]
    simp only [Option.map_some', Option.getD_some]
    rw [mul_one_div]

/-- Witness for the amended C7: the first sample of a concrete tone. -/
theorem generate_pcm_samples_spec_witness :
    (ToneGenerator.generate_pcm_samples ⟨440, 1, 8000, 1⟩).getD 0 0 =
      rustCastI16 (1 * Real.sin (2 * Real.pi * 440 * (((0:ℕ) : ℝ) / ((8000:ℕ) : ℝ))) * 32767) := by
  exact (generate_pcm_samples_spec ⟨440, 1, 8000, 1⟩).2 0 (by norm_num)

lemma split_into_bands_preserves (s : TelephonyAudioProcessor) (input : FP) :
    (s.split_into_bands input).2.config = s.config ∧
    (s.split_into_bands input).2.sample_rate = s.sample_rate ∧
    (s.split_into_bands input).2.band1_compressor = s.band1_compressor ∧
    (s.split_into_bands input).2.band2_compressor = s.band2_compressor ∧
    (s.split_into_bands input).2.band3_compressor = s.band3_compressor :=
  ⟨rfl, rfl, rfl, rfl, rfl⟩

lemma three_band_disabled_eq (s : TelephonyAudioProcessor) (input : FP)
    (h1 : s.config.band1_compressor.enabled = false)
    (h2 : s.config.band2_compressor.enabled = false)
    (h3 : s.config.band3_compressor.enabled = false) :
    (s.three_band_compressor input).1 =
      finiteOr0 ((s.split_into_bands input).1.1 + (s.split_into_bands input).1.2.1
        + (s.split_into_bands input).1.2.2) := by
  obtain ⟨hc, hsr, hb1, hb2, hb3⟩ := split_into_bands_preserves s input
  simp only [TelephonyAudioProcessor.three_band_compressor, hc]
  rw [compress_band_disabled_eq _ _ _ _ h1, compress_band_disabled_eq _ _ _ _ h2,
    compress_band_disabled_eq _ _ _ _ h3]

/-- C3 (amended): with all three band compressors disabled, the three-band
stage returns exactly the guarded sum of the three band-filter outputs — a
pure split-then-sum, which (per the counterexample) does not reproduce the
stage's input. -/
theorem three_band_disabled_sums_bands (s : TelephonyAudioProcessor) (input : FP)
    (h1 : s.config.band1_compressor.enabled = false)
    (h2 : s.config.band2_compressor.enabled = false)
    (h3 : s.config.band3_compressor.enabled = false) :
    (s.three_band_compressor input).1 =
      finiteOr0 ((s.split_into_bands input).1.1 + (s.split_into_bands input).1.2.1
        + (s.split_into_bands input).1.2.2) :=
  three_band_disabled_eq s input h1 h2 h3

/-- Witness for the amended C3 at a concrete all-disabled config and input. -/
theorem three_band_disabled_sums_bands_witness :
    ((TelephonyAudioProcessor.new 8000
      ⟨0.95, 300, 3400, 800, 2500,
       ⟨0.4, 0.01, 0.15, 4, 0.6, 0.15, false⟩,
       ⟨0.6, 0.02, 0.08, 2.5, 0.75, 0.2, false⟩,
       ⟨0.7, 0.005, 0.05, 2, 0.8, 0.1, false⟩,
       0.01, 0.1, 0.9⟩).three_band_compressor (some 1)).1 =
      finiteOr0
        (((TelephonyAudioProcessor.new 8000
          ⟨0.95, 300, 3400, 800, 2500,
           ⟨0.4, 0.01, 0.15, 4, 0.6, 0.15, false⟩,
           ⟨0.6, 0.02, 0.08, 2.5, 0.75, 0.2, false⟩,
           ⟨0.7, 0.005, 0.05, 2, 0.8, 0.1, false⟩,
           0.01, 0.1, 0.9⟩).split_into_bands (some 1)).1.1
        + ((TelephonyAudioProcessor.new 8000
          ⟨0.95, 300, 3400, 800, 2500,
           ⟨0.4, 0.01, 0.15, 4, 0.6, 0.15, false⟩,
           ⟨0.6, 0.02, 0.08, 2.5, 0.75, 0.2, false⟩,
           ⟨0.7, 0.005, 0.05, 2, 0.8, 0.1, false⟩,
           0.01, 0.1, 0.9⟩).split_into_bands (some 1)).1.2.1
        + ((TelephonyAudioProcessor.new 8000
          ⟨0.95, 300, 3400, 800, 2500,
           ⟨0.4, 0.01, 0.15, 4, 0.6, 0.15, false⟩,
           ⟨0.6, 0.02, 0.08, 2.5, 0.75, 0.2, false⟩,
           ⟨0.7, 0.005, 0.05, 2, 0.8, 0.1, false⟩,
           0.01, 0.1, 0.9⟩).split_into_bands (some 1)).1.2.2) :=
  three_band_disabled_sums_bands _ _ rfl rfl rfl

/-- C3 counterexample: at sample rate 8000, crossovers 2000 Hz and 8000/3 Hz
and all compressors disabled, the very first recombined output for the input
sample 1 at zeroed state is `1/(2+√2) + (√3−1)/(2√3) + 1/(4+√6) ≈ 0.659`,
which misses the input 1 by more than 1/4 — the split-then-recombine stage
does not reproduce its input to within a small tolerance. -/
theorem three_band_recombine_not_lossless :
    1/4 < |1 - sanitize ((TelephonyAudioProcessor.new 8000
      ⟨0.95, 300, 3400, 2000, 8000/3,
       ⟨0.4, 0.01, 0.15, 4, 0.6, 0.15, false⟩,
       ⟨0.6, 0.02, 0.08, 2.5, 0.75, 0.2, false⟩,
       ⟨0.7, 0.005, 0.05, 2, 0.8, 0.1, false⟩,
       0.01, 0.1, 0.9⟩).three_band_compressor (some 1)).1| := by
  rw [three_band_disabled_eq _ _ rfl rfl rfl]
  simp only [TelephonyAudioProcessor.new, TelephonyAudioProcessor.split_into_bands,
    TelephonyAudioProcessor.apply_lowpass_filter, TelephonyAudioProcessor.apply_highpass_filter,
    TelephonyAudioProcessor.apply_bandpass_filter, BandSplitFilters.new, BandCompressor.new,
    fpC, fp_add_some, fp_sub_some, fp_mul_some, finiteOr0_some_val, sanitize_some,
    mul_one, mul_zero, add_zero, sub_zero]
  have m1 : (2000 : ℝ) ⊓ (8000/2*0.95) = 2000 := min_eq_left (by norm_num)
  have m2 : (8000/3 : ℝ) ⊓ (8000/2*0.95) = 8000/3 := min_eq_left (by norm_num)
  rw [m1, m2]
  have a1 : Real.pi * ((2000:ℝ) / (8000/2)) / 2 = Real.pi/4 := by
    rw [show (2000:ℝ)/(8000/2) = 1/2 by norm_num]
    ring
  have a2 : Real.pi * ((8000/3:ℝ) / (8000/2)) / 2 = Real.pi/3 := by
    rw [show (8000/3:ℝ)/(8000/2) = 2/3 by norm_num]
    ring
  rw [a1, a2, Real.tan_pi_div_four, Real.tan_pi_div_three]
  simp only [one_mul, mul_one]
  have sq3 : Real.sqrt (Real.sqrt 3) * Real.sqrt (Real.sqrt 3) = Real.sqrt 3 :=
    Real.mul_self_sqrt (Real.sqrt_nonneg 3)
  have s33 : Real.sqrt 3 * Real.sqrt 3 = 3 := Real.mul_self_sqrt (by norm_num)
  have s23 : Real.sqrt 2 * Real.sqrt 3 = Real.sqrt 6 := by
    rw [← Real.sqrt_mul (by norm_num : (0:ℝ) ≤ 2) 3]
    norm_num
  rw [sq3, s33, s23]
  have s2l : (1.414:ℝ) < Real.sqrt 2 := (Real.lt_sqrt (by norm_num)).mpr (by norm_num)
  have s3l : (1.732:ℝ) < Real.sqrt 3 := (Real.lt_sqrt (by norm_num)).mpr (by norm_num)
  have s3u : Real.sqrt 3 < 1.7321 := (Real.sqrt_lt' (by norm_num)).mpr (by norm_num)
  have s6l : (2.449:ℝ) < Real.sqrt 6 := (Real.lt_sqrt (by norm_num)).mpr (by norm_num)
  have t1 : (1:ℝ)/(1+Real.sqrt 2+1) < 0.294 := by
    rw [div_lt_iff₀ (by nlinarith)]
    nlinarith
  have t2 : (Real.sqrt 3-1)/(1+(Real.sqrt 3-1)+Real.sqrt 3) < 0.2114 := by
    rw [div_lt_iff₀ (by nlinarith)]
    nlinarith
  have t3 : (1:ℝ)/(1+Real.sqrt 6+3) < 0.156 := by
    rw [div_lt_iff₀ (by nlinarith)]
    nlinarith
  calc (1:ℝ)/4
      < 1 - (1/(1+Real.sqrt 2+1) + (Real.sqrt 3-1)/(1+(Real.sqrt 3-1)+Real.sqrt 3)
          + 1/(1+Real.sqrt 6+3)) := by linarith
    _ ≤ |1 - (1/(1+Real.sqrt 2+1) + (Real.sqrt 3-1)/(1+(Real.sqrt 3-1)+Real.sqrt 3)
          + 1/(1+Real.sqrt 6+3))| := le_abs_self _
